import Mathlib

/-!
Shallow embedding of the SPT liquefaction software core
(source file `SSSLIaCBSPT.py`): the liquefaction-index calculator
`calculate_liquefaction_index` and the column reconciler
(`_normalize_text`, `_auto_identify_columns`, `preview_file`).

Python floats are modelled as exact rationals (`ℚ`), Python ints as `ℤ`.
A Python `dict` built by a comprehension is modelled as an association
list with overwrite-on-duplicate-key semantics (`dictInsert`), which
keeps a key at its first-insertion position and its last-assigned value,
exactly like CPython dicts.  A computation that raises an exception that
the caller catches (the `KeyError` from `N0_map`) is modelled as `none`.
-/

namespace SPT

/-- Soil layer record, the `{"ds": …, "N": …, "di": …}` dict of the source. -/
structure Layer where
  ds : ℚ
  N : ℚ
  di : ℚ
  deriving DecidableEq, Repr

/-- Input to `calculate_liquefaction_index` (the `data` dict). -/
structure SiteData where
  intensity : ℤ
  depth_criteria : ℤ
  dw : ℚ
  layers : List Layer
  deriving DecidableEq, Repr

/-- Per-layer output record appended to `results` in the source. `FS` is
`some q` for the finite value `N / Ncr` and `none` for the `float('inf')`
of the `Ncr == 0` branch. -/
structure LayerDetail where
  ds : ℚ
  N : ℚ
  N0 : ℚ
  Ncr : ℚ
  FS : Option ℚ
  di : ℚ
  wi : ℚ
  contribution : ℚ
  deriving DecidableEq, Repr

/-- Result dict returned by `calculate_liquefaction_index`.  The grade is
the literal string the source assigns. -/
structure Result where
  intensity : ℤ
  depth_criteria : ℤ
  dw : ℚ
  ile : ℚ
  grade : String
  layers : List LayerDetail
  deriving DecidableEq, Repr

/-- Reference blow-count table `N0_map = {7: 13, 8: 15, 9: 19}`.
Subscripting a Python dict with a missing key raises `KeyError`, modelled
as `none`. -/
def N0_map (i : ℤ) : Option ℚ :=
  if i = 7 then some 13 else if i = 8 then some 15 else if i = 9 then some 19 else none

/-- Per-layer computation: the body of the `for layer in data["layers"]`
loop of `calculate_liquefaction_index`. -/
def layerDetail (N0 dw : ℚ) (layer : Layer) : LayerDetail :=
  let ds := layer.ds
  let depth_factor : ℚ := if ds ≤ dw then 1 + 5/100 * (dw - ds) else 1 + 1/10 * (ds - dw)
  let Ncr : ℚ := N0 * depth_factor
  let FS : Option ℚ := if Ncr ≠ 0 then some (layer.N / Ncr) else none
  let wi : ℚ := if ds ≤ 5 then 10 else if ds ≤ 15 then 5 else if ds ≤ 20 then 2 else 0
  let contribution : ℚ :=
    match FS with
    | some fs => if fs ≤ 1 then max 0 (1 - fs) * layer.di * wi else 0
    | none => 0
  { ds := ds, N := layer.N, N0 := N0, Ncr := Ncr, FS := FS, di := layer.di,
    wi := wi, contribution := contribution }

/-- Grade classification, the `if ile <= 0 … elif depth == 15 … else  # 20m`
chain of the source (Table 2). -/
def classifyGrade (ile : ℚ) (depth : ℤ) : String :=
  if ile ≤ 0 then "No liquefaction"
  else if depth = 15 then
    if ile ≤ 5 then "Slight" else if ile ≤ 15 then "Moderate" else "Severe"
  else
    if ile ≤ 6 then "Slight" else if ile ≤ 18 then "Moderate" else "Severe"

/-- Core calculation `calculate_liquefaction_index`.  A missing intensity
key makes the dict subscript raise, which the caller catches: `none`. -/
def calculate_liquefaction_index (data : SiteData) : Option Result :=
  (N0_map data.intensity).map (fun N0 =>
    let results := data.layers.map (layerDetail N0 data.dw)
    let ile := (results.map (fun r => r.contribution)).sum
    { intensity := data.intensity, depth_criteria := data.depth_criteria, dw := data.dw,
      ile := ile, grade := classifyGrade ile data.depth_criteria, layers := results })

/-! ### Helper lemmas about the calculator -/

lemma layerDetail_ds (N0 dw : ℚ) (l : Layer) : (layerDetail N0 dw l).ds = l.ds := rfl

lemma layerDetail_N (N0 dw : ℚ) (l : Layer) : (layerDetail N0 dw l).N = l.N := rfl

lemma layerDetail_N0 (N0 dw : ℚ) (l : Layer) : (layerDetail N0 dw l).N0 = N0 := rfl

lemma layerDetail_di (N0 dw : ℚ) (l : Layer) : (layerDetail N0 dw l).di = l.di := rfl

lemma layerDetail_Ncr (N0 dw : ℚ) (l : Layer) :
    (layerDetail N0 dw l).Ncr =
      N0 * (if l.ds ≤ dw then 1 + 5/100 * (dw - l.ds) else 1 + 1/10 * (l.ds - dw)) := rfl

lemma layerDetail_FS (N0 dw : ℚ) (l : Layer) :
    (layerDetail N0 dw l).FS =
      (if (layerDetail N0 dw l).Ncr ≠ 0 then some (l.N / (layerDetail N0 dw l).Ncr) else none) := rfl

lemma layerDetail_wi (N0 dw : ℚ) (l : Layer) :
    (layerDetail N0 dw l).wi =
      (if l.ds ≤ 5 then 10 else if l.ds ≤ 15 then 5 else if l.ds ≤ 20 then 2 else 0) := rfl

lemma layerDetail_contribution (N0 dw : ℚ) (l : Layer) :
    (layerDetail N0 dw l).contribution =
      (match (layerDetail N0 dw l).FS with
       | some fs => if fs ≤ 1 then max 0 (1 - fs) * l.di * (layerDetail N0 dw l).wi else 0
       | none => 0) := rfl

lemma N0_map_cases (i : ℤ) (q : ℚ) (h : N0_map i = some q) :
    (i = 7 ∧ q = 13) ∨ (i = 8 ∧ q = 15) ∨ (i = 9 ∧ q = 19) := by
  unfold N0_map at h
  split_ifs at h with h7 h8 h9 <;> simp_all

lemma N0_map_eq_none (i : ℤ) : N0_map i = none ↔ ¬(i = 7 ∨ i = 8 ∨ i = 9) := by
  unfold N0_map
  split_ifs with h7 h8 h9 <;> simp_all

lemma N0_map_pos (i : ℤ) (q : ℚ) (h : N0_map i = some q) : 0 < q := by
  rcases N0_map_cases i q h with ⟨_, rfl⟩ | ⟨_, rfl⟩ | ⟨_, rfl⟩ <;> norm_num

/-- Structural decomposition of a successful calculation. -/
lemma calculate_eq (data : SiteData) (r : Result)
    (h : calculate_liquefaction_index data = some r) :
    ∃ N0, N0_map data.intensity = some N0
      ∧ r.intensity = data.intensity
      ∧ r.depth_criteria = data.depth_criteria
      ∧ r.dw = data.dw
      ∧ r.layers = data.layers.map (layerDetail N0 data.dw)
      ∧ r.ile = (r.layers.map (fun d => d.contribution)).sum
      ∧ r.grade = classifyGrade r.ile data.depth_criteria := by
  unfold calculate_liquefaction_index at h
  rcases Option.map_eq_some'.mp h with ⟨N0, hN0, hr⟩
  subst hr
  exact ⟨N0, hN0, rfl, rfl, rfl, rfl, rfl, rfl⟩

lemma depth_factor_pos (dw ds : ℚ) :
    0 < (if ds ≤ dw then 1 + 5/100 * (dw - ds) else 1 + 1/10 * (ds - dw)) := by
  split_ifs with h
  · nlinarith
  · push_neg at h
    nlinarith

lemma wi_nonneg (N0 dw : ℚ) (l : Layer) : 0 ≤ (layerDetail N0 dw l).wi := by
  rw [layerDetail_wi]
  split_ifs <;> norm_num

lemma contribution_nonneg (N0 dw : ℚ) (l : Layer) (hdi : 0 ≤ l.di) :
    0 ≤ (layerDetail N0 dw l).contribution := by
  rw [layerDetail_contribution]
  cases hFS : (layerDetail N0 dw l).FS with
  | none => exact le_refl 0
  | some fs =>
    dsimp only
    split_ifs with h1
    · exact mul_nonneg (mul_nonneg (le_max_left 0 (1 - fs)) hdi) (wi_nonneg N0 dw l)
    · exact le_refl 0

/-! ### Concrete inputs used by witnesses and counterexamples -/

/-- End-to-end scenario A of the spec: intensity 7, depth criterion 15,
groundwater at 2 m, a single layer ds = 1.5, N = 12, di = 3. -/
def dataA : SiteData := ⟨7, 15, 2, [⟨3/2, 12, 3⟩]⟩

/-- Result of scenario A: Ncr = 13.325, FS = 480/533 ≈ 0.9006,
contribution = ILE = 1590/533 ≈ 2.983, grade Slight. -/
def resA : Result := ⟨7, 15, 2, 1590/533, "Slight", [⟨3/2, 12, 13, 533/40, some (480/533), 3, 10, 1590/533⟩]⟩

/-- Detail row of scenario A. -/
def detA : LayerDetail := ⟨3/2, 12, 13, 533/40, some (480/533), 3, 10, 1590/533⟩

/-- Boundary input: a layer exactly at ds = 5 (weight-band boundary). -/
def dataB : SiteData := ⟨7, 15, 0, [⟨5, 0, 0⟩]⟩

/-- Result of the boundary input: wi = 10 at ds = 5. -/
def resB : Result := ⟨7, 15, 0, 0, "No liquefaction", [⟨5, 0, 13, 39/2, some 0, 0, 10, 0⟩]⟩

/-- Detail row of the boundary input. -/
def detB : LayerDetail := ⟨5, 0, 13, 39/2, some 0, 0, 10, 0⟩

/-- Input with a non-liquefiable layer: FS = 2000/399 > 1. -/
def dataC : SiteData := ⟨9, 15, 2, [⟨1, 100, 5⟩]⟩

/-- Result for `dataC`: the FS > 1 layer contributes 0. -/
def resC : Result := ⟨9, 15, 2, 0, "No liquefaction", [⟨1, 100, 19, 399/20, some (2000/399), 5, 10, 0⟩]⟩

/-- Detail row of `dataC`. -/
def detC : LayerDetail := ⟨1, 100, 19, 399/20, some (2000/399), 5, 10, 0⟩

/-- Input with an undocumented depth criterion of 17 m. -/
def dataD : SiteData := ⟨8, 17, 2, [⟨3/2, 6, 3⟩]⟩

/-- Result for `dataD`: ILE = 750/41 ≈ 18.29 > 18, graded Severe by the
20 m thresholds even though depthCriterion is 17. -/
def resD : Result := ⟨8, 17, 2, 750/41, "Severe", [⟨3/2, 6, 15, 123/8, some (16/41), 3, 10, 750/41⟩]⟩

/-- Input with an empty layer list. -/
def dataE : SiteData := ⟨7, 15, 2, []⟩

/-- Result for the empty layer list: ILE = 0, no liquefaction. -/
def resE : Result := ⟨7, 15, 2, 0, "No liquefaction", []⟩

/-- Input whose single layer has negative ds, N and di, with a valid
intensity. -/
def dataNeg : SiteData := ⟨7, 15, 2, [⟨-1, -2, -3⟩]⟩

/-! ### Claim theorems: the liquefaction calculator -/

/-- C1: for every layer of a computed Result, the critical blow count is
Ncr = N0 * depthFactor, with depthFactor = 1 + 0.05 (dw - ds) when
ds ≤ dw and 1 + 0.1 (ds - dw) when ds > dw, and N0 taken from the fixed
intensity table 7 ↦ 13, 8 ↦ 15, 9 ↦ 19. -/
theorem C1_critical_blow_count (data : SiteData) (r : Result)
    (h : calculate_liquefaction_index data = some r) :
    ∀ d ∈ r.layers,
      d.Ncr = d.N0 * (if d.ds ≤ data.dw then 1 + 5/100 * (data.dw - d.ds)
                      else 1 + 1/10 * (d.ds - data.dw))
      ∧ ((data.intensity = 7 ∧ d.N0 = 13) ∨ (data.intensity = 8 ∧ d.N0 = 15)
         ∨ (data.intensity = 9 ∧ d.N0 = 19)) := by
  rcases calculate_eq data r h with ⟨N0, hN0, -, -, -, hlayers, -, -⟩
  intro d hd
  rw [hlayers] at hd
  rcases List.mem_map.mp hd with ⟨l, -, rfl⟩
  refine ⟨?_, ?_⟩
  · rw [layerDetail_Ncr, layerDetail_N0, layerDetail_ds]
  · rcases N0_map_cases data.intensity N0 hN0 with ⟨h7, rfl⟩ | ⟨h8, rfl⟩ | ⟨h9, rfl⟩
    · exact Or.inl ⟨h7, layerDetail_N0 _ _ _⟩
    · exact Or.inr (Or.inl ⟨h8, layerDetail_N0 _ _ _⟩)
    · exact Or.inr (Or.inr ⟨h9, layerDetail_N0 _ _ _⟩)

/-- C1 witness: scenario A evaluated concretely. -/
theorem C1_witness :
    calculate_liquefaction_index dataA = some resA
    ∧ detA ∈ resA.layers
    ∧ (detA.Ncr = detA.N0 * (if detA.ds ≤ dataA.dw then 1 + 5/100 * (dataA.dw - detA.ds)
                             else 1 + 1/10 * (detA.ds - dataA.dw))
       ∧ ((dataA.intensity = 7 ∧ detA.N0 = 13) ∨ (dataA.intensity = 8 ∧ detA.N0 = 15)
          ∨ (dataA.intensity = 9 ∧ detA.N0 = 19))) := by
  have h : calculate_liquefaction_index dataA = some resA := by
    norm_num [dataA, resA, calculate_liquefaction_index, N0_map, layerDetail, classifyGrade]
  have hmem : detA ∈ resA.layers := by simp [detA, resA]
  exact ⟨h, hmem, C1_critical_blow_count dataA resA h detA hmem⟩

/-- C2: the per-layer contribution is max(0, 1 - FS) * di * wi when
FS ≤ 1 and exactly 0 when FS > 1 (including the FS = +infinity case,
modelled by `none`), regardless of the layer's weight or thickness. -/
theorem C2_contribution (data : SiteData) (r : Result)
    (h : calculate_liquefaction_index data = some r) :
    ∀ d ∈ r.layers,
      (∀ fs, d.FS = some fs →
        (fs ≤ 1 → d.contribution = max 0 (1 - fs) * d.di * d.wi)
        ∧ (1 < fs → d.contribution = 0))
      ∧ (d.FS = none → d.contribution = 0) := by
  rcases calculate_eq data r h with ⟨N0, -, -, -, -, hlayers, -, -⟩
  intro d hd
  rw [hlayers] at hd
  rcases List.mem_map.mp hd with ⟨l, -, rfl⟩
  constructor
  · intro fs hfs
    have hc := layerDetail_contribution N0 data.dw l
    rw [hfs] at hc
    dsimp only at hc
    constructor
    · intro hle
      rw [hc, if_pos hle, layerDetail_di, layerDetail_wi]
    · intro hgt
      rw [hc, if_neg (not_le.mpr hgt)]
  · intro hfs
    have hc := layerDetail_contribution N0 data.dw l
    rw [hfs] at hc
    exact hc

/-- C2 witness: the FS ≤ 1 layer of scenario A gets contribution
max(0, 1 - FS) di wi, and the FS > 1 layer of `dataC` contributes 0. -/
theorem C2_witness :
    calculate_liquefaction_index dataA = some resA
    ∧ detA ∈ resA.layers
    ∧ detA.FS = some (480/533)
    ∧ detA.contribution = max 0 (1 - 480/533) * detA.di * detA.wi
    ∧ calculate_liquefaction_index dataC = some resC
    ∧ detC ∈ resC.layers
    ∧ detC.FS = some (2000/399)
    ∧ detC.contribution = 0 := by
  have hA : calculate_liquefaction_index dataA = some resA := by
    norm_num [dataA, resA, calculate_liquefaction_index, N0_map, layerDetail, classifyGrade]
  have hmA : detA ∈ resA.layers := by simp [detA, resA]
  have hC : calculate_liquefaction_index dataC = some resC := by
    norm_num [dataC, resC, calculate_liquefaction_index, N0_map, layerDetail, classifyGrade]
  have hmC : detC ∈ resC.layers := by simp [detC, resC]
  refine ⟨hA, hmA, by norm_num [detA], ?_, hC, hmC, by norm_num [detC], ?_⟩
  · exact ((C2_contribution dataA resA hA detA hmA).1 (480/533) (by norm_num [detA])).1
      (by norm_num)
  · exact ((C2_contribution dataC resC hC detC hmC).1 (2000/399) (by norm_num [detC])).2
      (by norm_num)

/-- C3: the liquefaction index of a Result is the sum of the per-layer
contributions in input order; it is nonnegative whenever all thicknesses
are nonnegative (the data-model precondition di ≥ 0); and an empty layer
list yields ILE = 0 with grade "No liquefaction" as a valid Result. -/
theorem C3_index_sum (data : SiteData) (r : Result)
    (h : calculate_liquefaction_index data = some r) :
    r.ile = (r.layers.map (fun d => d.contribution)).sum
    ∧ ((∀ l ∈ data.layers, 0 ≤ l.di) → 0 ≤ r.ile)
    ∧ (data.layers = [] → r.ile = 0 ∧ r.grade = "No liquefaction") := by
  rcases calculate_eq data r h with ⟨N0, -, -, -, -, hlayers, hile, hgrade⟩
  refine ⟨hile, ?_, ?_⟩
  · intro hdi
    rw [hile]
    apply List.sum_nonneg
    intro x hx
    rcases List.mem_map.mp hx with ⟨d, hd, rfl⟩
    rw [hlayers] at hd
    rcases List.mem_map.mp hd with ⟨l, hl, rfl⟩
    exact contribution_nonneg N0 data.dw l (hdi l hl)
  · intro hempty
    have hile0 : r.ile = 0 := by
      rw [hile, hlayers, hempty]
      simp
    refine ⟨hile0, ?_⟩
    rw [hgrade, hile0]
    unfold classifyGrade
    rw [if_pos (le_refl (0:ℚ))]

/-- C3 witness: scenario A has nonnegative ILE equal to the contribution
sum, and the empty-layer input `dataE` yields ILE = 0, no liquefaction. -/
theorem C3_witness :
    calculate_liquefaction_index dataA = some resA
    ∧ resA.ile = (resA.layers.map (fun d => d.contribution)).sum
    ∧ 0 ≤ resA.ile
    ∧ calculate_liquefaction_index dataE = some resE
    ∧ resE.ile = 0
    ∧ resE.grade = "No liquefaction" := by
  have hA : calculate_liquefaction_index dataA = some resA := by
    norm_num [dataA, resA, calculate_liquefaction_index, N0_map, layerDetail, classifyGrade]
  have hE : calculate_liquefaction_index dataE = some resE := by
    norm_num [dataE, resE, calculate_liquefaction_index, N0_map, classifyGrade]
  refine ⟨hA, (C3_index_sum dataA resA hA).1,
    (C3_index_sum dataA resA hA).2.1 (by norm_num [dataA]), hE,
    ((C3_index_sum dataE resE hE).2.2 rfl).1, ((C3_index_sum dataE resE hE).2.2 rfl).2⟩

/-- C4: the grade of a Result is the pure function `classifyGrade` of
(ILE, depthCriterion); ILE ≤ 0 gives "No liquefaction" for any depth
criterion; for 15 m the bands are (0,5] Slight, (5,15] Moderate,
(15,∞) Severe; for 20 m they are (0,6] Slight, (6,18] Moderate,
(18,∞) Severe; every threshold is inclusive on the lower grade. -/
theorem C4_grade (data : SiteData) (r : Result)
    (h : calculate_liquefaction_index data = some r) :
    r.grade = classifyGrade r.ile r.depth_criteria
    ∧ (r.ile ≤ 0 → r.grade = "No liquefaction")
    ∧ (r.depth_criteria = 15 →
        (0 < r.ile → r.ile ≤ 5 → r.grade = "Slight")
        ∧ (5 < r.ile → r.ile ≤ 15 → r.grade = "Moderate")
        ∧ (15 < r.ile → r.grade = "Severe"))
    ∧ (r.depth_criteria = 20 →
        (0 < r.ile → r.ile ≤ 6 → r.grade = "Slight")
        ∧ (6 < r.ile → r.ile ≤ 18 → r.grade = "Moderate")
        ∧ (18 < r.ile → r.grade = "Severe"))
    ∧ classifyGrade 5 15 = "Slight" ∧ classifyGrade 15 15 = "Moderate"
    ∧ classifyGrade 6 20 = "Slight" ∧ classifyGrade 18 20 = "Moderate" := by
  rcases calculate_eq data r h with ⟨N0, -, -, hdepth, -, -, -, hgrade⟩
  rw [← hdepth] at hgrade
  refine ⟨hgrade, ?_, ?_, ?_, ?_, ?_, ?_, ?_⟩
  · intro hle
    rw [hgrade]
    unfold classifyGrade
    rw [if_pos hle]
  · intro h15
    refine ⟨?_, ?_, ?_⟩ <;> intro h1 <;> try intro h2
    all_goals rw [hgrade]; unfold classifyGrade
    · rw [if_neg (not_le.mpr h1), if_pos h15, if_pos h2]
    · rw [if_neg (by linarith), if_pos h15, if_neg (not_le.mpr h1), if_pos h2]
    · rw [if_neg (by linarith), if_pos h15, if_neg (by linarith), if_neg (not_le.mpr h1)]
  · intro h20
    refine ⟨?_, ?_, ?_⟩ <;> intro h1 <;> try intro h2
    all_goals rw [hgrade]; unfold classifyGrade
    · rw [if_neg (not_le.mpr h1), if_neg (by rw [h20]; norm_num), if_pos h2]
    · rw [if_neg (by linarith), if_neg (by rw [h20]; norm_num), if_neg (not_le.mpr h1), if_pos h2]
    · rw [if_neg (by linarith), if_neg (by rw [h20]; norm_num), if_neg (by linarith),
        if_neg (not_le.mpr h1)]
  · unfold classifyGrade; norm_num
  · unfold classifyGrade; norm_num
  · unfold classifyGrade; norm_num
  · unfold classifyGrade; norm_num

/-- C4 witness: scenario A's grade is `classifyGrade` of its index and
depth criterion, and 0 < ILE ≤ 5 at 15 m is graded Slight. -/
theorem C4_witness :
    calculate_liquefaction_index dataA = some resA
    ∧ resA.grade = classifyGrade resA.ile resA.depth_criteria
    ∧ resA.grade = "Slight" := by
  have hA : calculate_liquefaction_index dataA = some resA := by
    norm_num [dataA, resA, calculate_liquefaction_index, N0_map, layerDetail, classifyGrade]
  refine ⟨hA, (C4_grade dataA resA hA).1, ?_⟩
  exact ((C4_grade dataA resA hA).2.2.1 rfl).1 (by norm_num [resA]) (by norm_num [resA])

/-- C5: the depth weight of every layer of a Result is the step function
of ds with bands (-∞,5] ↦ 10, (5,15] ↦ 5, (15,20] ↦ 2, (20,∞) ↦ 0,
each band inclusive at its upper bound. -/
theorem C5_weight (data : SiteData) (r : Result)
    (h : calculate_liquefaction_index data = some r) :
    ∀ d ∈ r.layers,
      (d.ds ≤ 5 → d.wi = 10)
      ∧ (5 < d.ds → d.ds ≤ 15 → d.wi = 5)
      ∧ (15 < d.ds → d.ds ≤ 20 → d.wi = 2)
      ∧ (20 < d.ds → d.wi = 0) := by
  rcases calculate_eq data r h with ⟨N0, -, -, -, -, hlayers, -, -⟩
  intro d hd
  rw [hlayers] at hd
  rcases List.mem_map.mp hd with ⟨l, -, rfl⟩
  rw [layerDetail_wi, layerDetail_ds]
  refine ⟨?_, ?_, ?_, ?_⟩
  · intro h1
    rw [if_pos h1]
  · intro h1 h2
    rw [if_neg (not_le.mpr h1), if_pos h2]
  · intro h1 h2
    rw [if_neg (by linarith), if_neg (not_le.mpr h1), if_pos h2]
  · intro h1
    rw [if_neg (by linarith), if_neg (by linarith), if_neg (not_le.mpr h1)]

/-- C5 witness: the boundary layer at ds = 5 exactly gets weight 10,
not 5. -/
theorem C5_witness :
    calculate_liquefaction_index dataB = some resB
    ∧ detB ∈ resB.layers
    ∧ detB.ds = 5
    ∧ detB.wi = 10 := by
  have hB : calculate_liquefaction_index dataB = some resB := by
    norm_num [dataB, resB, calculate_liquefaction_index, N0_map, layerDetail, classifyGrade]
  have hm : detB ∈ resB.layers := by simp [detB, resB]
  exact ⟨hB, hm, rfl, (C5_weight dataB resB hB detB hm).1 (by norm_num [detB])⟩

/-- C6: for every layer of a Result the code computes FS = N / Ncr when
Ncr ≠ 0 and +infinity (`none`) when Ncr = 0; and under the preconditions
ds ≥ 0, dw ≥ 0 and a valid intensity (guaranteed by the successful
lookup), Ncr is strictly positive, so the degenerate branch is
unreachable and FS is always the finite quotient. -/
theorem C6_safety_factor (data : SiteData) (r : Result)
    (h : calculate_liquefaction_index data = some r)
    (hds : ∀ l ∈ data.layers, 0 ≤ l.ds) (hdw : 0 ≤ data.dw) :
    ∀ d ∈ r.layers,
      0 < d.Ncr
      ∧ (d.Ncr ≠ 0 → d.FS = some (d.N / d.Ncr))
      ∧ (d.Ncr = 0 → d.FS = none)
      ∧ d.FS = some (d.N / d.Ncr) := by
  rcases calculate_eq data r h with ⟨N0, hN0, -, -, -, hlayers, -, -⟩
  intro d hd
  rw [hlayers] at hd
  rcases List.mem_map.mp hd with ⟨l, -, rfl⟩
  have hpos : 0 < (layerDetail N0 data.dw l).Ncr := by
    rw [layerDetail_Ncr]
    exact mul_pos (N0_map_pos data.intensity N0 hN0) (depth_factor_pos data.dw l.ds)
  refine ⟨hpos, ?_, ?_, ?_⟩
  · intro hne
    rw [layerDetail_FS, if_pos hne, layerDetail_N]
  · intro heq
    rw [layerDetail_FS, if_neg (by simp [heq])]
  · rw [layerDetail_FS, if_pos hpos.ne', layerDetail_N]

/-- C6 witness: in scenario A the critical value is positive and the
safety factor is the finite quotient N / Ncr. -/
theorem C6_witness :
    calculate_liquefaction_index dataA = some resA
    ∧ detA ∈ resA.layers
    ∧ 0 < detA.Ncr
    ∧ detA.FS = some (detA.N / detA.Ncr) := by
  have hA : calculate_liquefaction_index dataA = some resA := by
    norm_num [dataA, resA, calculate_liquefaction_index, N0_map, layerDetail, classifyGrade]
  have hm : detA ∈ resA.layers := by simp [detA, resA]
  have hmain := C6_safety_factor dataA resA hA (by norm_num [dataA]) (by norm_num [dataA]) detA hm
  exact ⟨hA, hm, hmain.1, hmain.2.2.2⟩

/-- C7 counterexample: an input with a valid intensity but negative ds,
N and di in its layer is NOT rejected — the calculator returns a Result,
contradicting the claim that any negative physical quantity aborts the
calculation with an invalid-input error. -/
theorem C7_counterexample : calculate_liquefaction_index dataNeg ≠ none := by
  simp [dataNeg, calculate_liquefaction_index, N0_map]

/-- C7 amended: the calculation fails (the intensity lookup raises and
the caller receives the error, no Result being produced) exactly when the
intensity is outside {7, 8, 9}; negative ds, N or di are not validated
and still produce a Result. -/
theorem C7_invalid_input (data : SiteData) :
    calculate_liquefaction_index data = none ↔
      ¬(data.intensity = 7 ∨ data.intensity = 8 ∨ data.intensity = 9) := by
  unfold calculate_liquefaction_index
  rw [Option.map_eq_none']
  exact N0_map_eq_none data.intensity

/-- C7 witness: intensity 10 makes the calculation fail with no Result. -/
theorem C7_witness : calculate_liquefaction_index ⟨10, 15, 2, []⟩ = none :=
  (C7_invalid_input ⟨10, 15, 2, []⟩).mpr (by decide)

/-- C10: for any depth criterion other than 15 — documented or not — a
computed Result is graded with the 20 m thresholds (Slight up to 6,
Moderate up to 18, Severe above); the depth criterion is never
validated. -/
theorem C10_depth_fallback (data : SiteData) (r : Result)
    (h : calculate_liquefaction_index data = some r)
    (hd : data.depth_criteria ≠ 15) :
    r.depth_criteria ≠ 15
    ∧ (r.ile ≤ 0 → r.grade = "No liquefaction")
    ∧ (0 < r.ile → r.ile ≤ 6 → r.grade = "Slight")
    ∧ (6 < r.ile → r.ile ≤ 18 → r.grade = "Moderate")
    ∧ (18 < r.ile → r.grade = "Severe") := by
  rcases calculate_eq data r h with ⟨N0, -, -, hdepth, -, -, -, hgrade⟩
  rw [← hdepth] at hd
  rw [← hdepth] at hgrade
  refine ⟨hd, ?_, ?_, ?_, ?_⟩
  · intro h1
    rw [hgrade]
    unfold classifyGrade
    rw [if_pos h1]
  · intro h1 h2
    rw [hgrade]
    unfold classifyGrade
    rw [if_neg (not_le.mpr h1), if_neg hd, if_pos h2]
  · intro h1 h2
    rw [hgrade]
    unfold classifyGrade
    rw [if_neg (by linarith), if_neg hd, if_neg (not_le.mpr h1), if_pos h2]
  · intro h1
    rw [hgrade]
    unfold classifyGrade
    rw [if_neg (by linarith), if_neg hd, if_neg (by linarith), if_neg (not_le.mpr h1)]

/-- C10 witness: depth criterion 17 is accepted and its ILE of
750/41 > 18 is graded Severe by the 20 m banding. -/
theorem C10_witness :
    calculate_liquefaction_index dataD = some resD
    ∧ resD.depth_criteria ≠ 15
    ∧ resD.grade = "Severe" := by
  have hD : calculate_liquefaction_index dataD = some resD := by
    norm_num [dataD, resD, calculate_liquefaction_index, N0_map, layerDetail, classifyGrade]
  have hmain := C10_depth_fallback dataD resD hD (by decide)
  exact ⟨hD, hmain.1, hmain.2.2.2.2 (by norm_num [resD])⟩

/-! ### Column reconciler

Embedding of `_normalize_text`, `_auto_identify_columns` and the
gating part of `preview_file`.  Header strings are normalized to
`List Char`; the Python dict comprehension
`{self._normalize_text(col): col for col in columns}` is modelled by
`dictInsert`/`normalized_columns` with CPython semantics: a duplicated
key keeps its first-insertion position and its last-assigned value. -/

/-- Character class kept by the regex `[^a-zA-Z0-9一-龥]`
substitution: ASCII letters, ASCII digits and the CJK ideograph block
U+4E00 to U+9FA5. -/
def keptChar (c : Char) : Bool :=
  ('a' ≤ c && c ≤ 'z') || ('A' ≤ c && c ≤ 'Z') || ('0' ≤ c && c ≤ '9')
    || (0x4e00 ≤ c.toNat && c.toNat ≤ 0x9fa5)

/-- Normalization `_normalize_text`: drop every character outside the
kept class, then lower-case (Python `str.lower` only affects the ASCII
upper-case letters among the kept characters). -/
def normT (s : String) : List Char :=
  (s.toList.filter keptChar).map Char.toLower

/-- Insertion into a Python dict: overwrite the value at an existing key
in place, otherwise append the binding at the end. -/
def dictInsert (k : List Char) (v : String) : List (List Char × String) → List (List Char × String)
  | [] => [(k, v)]
  | p :: rest => if p.1 == k then (k, v) :: rest else p :: dictInsert k v rest

/-- The dict `normalized_columns = {normalize(col): col for col in columns}`. -/
def normalized_columns (cols : List String) : List (List Char × String) :=
  cols.foldl (fun d c => dictInsert (normT c) c d) []

/-- Dict key lookup (`key in dict` + subscript). -/
def lookupCol (k : List Char) : List (List Char × String) → Option String
  | [] => none
  | p :: rest => if p.1 == k then some p.2 else lookupCol k rest

/-- Alias loop of step 2: aliases in listed order, each looked up as an
exact key of the normalized-columns dict. -/
def aliasLookup (aliases : List String) (nc : List (List Char × String)) : Option String :=
  match aliases with
  | [] => none
  | a :: rest =>
    match lookupCol (normT a) nc with
    | some c => some c
    | none => aliasLookup rest nc

/-- Boolean prefix test on character lists. -/
def startsWith : List Char → List Char → Bool
  | [], _ => true
  | _ :: _, [] => false
  | a :: as, b :: bs => a == b && startsWith as bs

/-- Python substring test `needle in hay`. -/
def containsSub (needle : List Char) : List Char → Bool
  | [] => needle.isEmpty
  | c :: rest => startsWith needle (c :: rest) || containsSub needle rest

/-- Fuzzy loop of step 3: iterate the dict items in insertion order and
return the stored column of the first normalized key that contains the
normalized standard name or any normalized alias as a substring. -/
def fuzzyLookup (stdN : List Char) (aliases : List String) :
    List (List Char × String) → Option String
  | [] => none
  | p :: rest =>
    if containsSub stdN p.1 || aliases.any (fun a => containsSub (normT a) p.1) then some p.2
    else fuzzyLookup stdN aliases rest

/-- Per-field body of `_auto_identify_columns`: exact match on the
normalized standard name, then alias match, then fuzzy match. -/
def autoIdentifyField (stdCol : String) (aliases : List String) (cols : List String) :
    Option String :=
  let nc := normalized_columns cols
  let stdN := normT stdCol
  match lookupCol stdN nc with
  | some c => some c
  | none =>
    match aliasLookup aliases nc with
    | some c => some c
    | none => fuzzyLookup stdN aliases nc

/-- Matching procedure as the specification words it: stage 1 scans the
headers in original order for one whose normalized form equals the
normalized canonical name; stage 2 tries the aliases in listed order,
each scanned against the headers in original order; stage 3 scans the
headers in original order for one whose normalized form contains the
normalized canonical name or any normalized alias; first hit wins. -/
def specAliasMatch (aliases : List String) (cols : List String) : Option String :=
  match aliases with
  | [] => none
  | a :: rest =>
    match cols.find? (fun c => normT c == normT a) with
    | some c => some c
    | none => specAliasMatch rest cols

/-- Specification-side matcher for one canonical field (see
`specAliasMatch`). -/
def specMatchField (stdCol : String) (aliases : List String) (cols : List String) :
    Option String :=
  match cols.find? (fun c => normT c == normT stdCol) with
  | some c => some c
  | none =>
    match specAliasMatch aliases cols with
    | some c => some c
    | none =>
      cols.find? (fun c =>
        containsSub (normT stdCol) (normT c)
          || aliases.any (fun a => containsSub (normT a) (normT c)))

/-- The fixed canonical-field / alias dictionary `self.column_mapping`. -/
def column_mapping : List (String × List String) :=
  [("Point ID", ["Point ID", "Point No", "Measurement Point ID", "ID", "Point Number"]),
   ("Saturated soil depth ds(m)",
    ["Saturated soil depth ds(m)", "Saturated depth(m)", "ds", "Saturated depth",
     "Soil depth ds", "Depth ds"]),
   ("Measured N-value",
    ["Measured N-value", "N-value", "Measured penetration value", "Standard penetration N",
     "N", "Blow count N"]),
   ("Layer thickness di(m)",
    ["Layer thickness di(m)", "Thickness di(m)", "Soil layer thickness", "di",
     "Thickness(m)", "Layer thickness di"])]

/-- The full `_auto_identify_columns`: one entry per canonical field, in
dictionary order. -/
def auto_identify_columns (cols : List String) : List (String × Option String) :=
  column_mapping.map (fun p => (p.1, autoIdentifyField p.1 p.2 cols))

/-- Python truthiness test `not val` for a mapping value: `None` and the
empty string are falsy. -/
def falsy : Option String → Bool
  | none => true
  | some s => s == ""

/-- The `missing` list of `preview_file`: canonical names whose mapping
value is falsy, in dictionary order. -/
def missing_columns (cols : List String) : List String :=
  ((auto_identify_columns cols).filter (fun p => falsy p.2)).map (fun p => p.1)

/-- Imported table: headers plus rows of cells aligned with the headers. -/
structure Table where
  headers : List String
  rows : List (List String)
  deriving DecidableEq, Repr

/-- Cell of a row under a named column. -/
def cellValue (t : Table) (row : List String) (col : String) : String :=
  match t.headers.findIdx? (fun h => h == col) with
  | some i => row.getD i ""
  | none => ""

/-- Grouping `df.groupby(point_col)`: one group per distinct Point-ID
value, keys sorted ascending as pandas does, rows kept in table order
within each group. -/
def group_points (t : Table) (pcol : String) : List (String × List (List String)) :=
  let keys := ((t.rows.map (fun r => cellValue t r pcol)).dedup).insertionSort (fun a b => a ≤ b)
  keys.map (fun k => (k, t.rows.filter (fun r => cellValue t r pcol == k)))

/-- Import gate of `preview_file`: if any canonical field is missing,
the import is rejected with the list of missing field names and no
point groups are built; otherwise the rows are grouped by the Point-ID
column. -/
def preview_file (t : Table) : Except (List String) (List (String × List (List String))) :=
  let missing := missing_columns t.headers
  if missing ≠ [] then Except.error missing
  else
    let pcol := (((auto_identify_columns t.headers).find? (fun p => p.1 == "Point ID")).bind
      (fun p => p.2)).getD ""
    Except.ok (group_points t pcol)

/-- Discriminator for the accepted case of an import. -/
def acceptedImport {ε α : Type} : Except ε α → Bool
  | Except.ok _ => true
  | Except.error _ => false

instance {ε α : Type} [DecidableEq ε] [DecidableEq α] : DecidableEq (Except ε α) := fun a b =>
  match a, b with
  | Except.ok x, Except.ok y =>
    if h : x = y then isTrue (by rw [h]) else isFalse (by intro hc; cases hc; exact h rfl)
  | Except.error x, Except.error y =>
    if h : x = y then isTrue (by rw [h]) else isFalse (by intro hc; cases hc; exact h rfl)
  | Except.ok _, Except.error _ => isFalse (by intro hc; cases hc)
  | Except.error _, Except.ok _ => isFalse (by intro hc; cases hc)

/-! ### Helper lemmas about the reconciler -/

lemma dictInsert_of_forall (k : List Char) (v : String) (d : List (List Char × String))
    (h : ∀ p ∈ d, p.1 ≠ k) : dictInsert k v d = d ++ [(k, v)] := by
  induction d with
  | nil => rfl
  | cons p rest ih =>
    have hp : ¬((p.1 == k) = true) := by
      simp only [beq_iff_eq]
      exact h p (List.mem_cons_self p rest)
    simp only [dictInsert, if_neg hp, List.cons_append, List.cons.injEq, true_and]
    exact ih (fun q hq => h q (List.mem_cons_of_mem p hq))

lemma foldl_dictInsert_eq (cols : List String) :
    ∀ acc : List (List Char × String),
      (cols.map normT).Nodup →
      (∀ p ∈ acc, ∀ c ∈ cols, p.1 ≠ normT c) →
      cols.foldl (fun d c => dictInsert (normT c) c d) acc
        = acc ++ cols.map (fun c => (normT c, c)) := by
  induction cols with
  | nil =>
    intro acc _ _
    simp
  | cons c cs ih =>
    intro acc hnd hdisj
    rw [List.map_cons] at hnd
    have hhead : normT c ∉ cs.map normT := (List.nodup_cons.mp hnd).1
    have h1 : dictInsert (normT c) c acc = acc ++ [(normT c, c)] :=
      dictInsert_of_forall _ _ _ (fun p hp => hdisj p hp c (List.mem_cons_self c cs))
    have hdisj' : ∀ p ∈ acc ++ [(normT c, c)], ∀ c' ∈ cs, p.1 ≠ normT c' := by
      intro p hp c' hc'
      rcases List.mem_append.mp hp with hp | hp
      · exact hdisj p hp c' (List.mem_cons_of_mem c hc')
      · rcases List.mem_singleton.mp hp with rfl
        intro hEq
        have hEq' : normT c = normT c' := hEq
        exact hhead (hEq' ▸ List.mem_map_of_mem normT hc')
    rw [List.foldl_cons, h1, ih (acc ++ [(normT c, c)]) (List.nodup_cons.mp hnd).2 hdisj']
    simp

lemma normalized_columns_eq (cols : List String) (h : (cols.map normT).Nodup) :
    normalized_columns cols = cols.map (fun c => (normT c, c)) := by
  have := foldl_dictInsert_eq cols [] h (by intro p hp; cases hp)
  simpa [normalized_columns] using this

lemma lookupCol_map (k : List Char) (cols : List String) :
    lookupCol k (cols.map (fun c => (normT c, c))) = cols.find? (fun c => normT c == k) := by
  induction cols with
  | nil => rfl
  | cons c cs ih =>
    cases h : (normT c == k) with
    | true => simp [lookupCol, List.find?_cons, h]
    | false => simp [lookupCol, List.find?_cons, h, ih]

lemma aliasLookup_map (aliases cols : List String) :
    aliasLookup aliases (cols.map (fun c => (normT c, c))) = specAliasMatch aliases cols := by
  induction aliases with
  | nil => rfl
  | cons a rest ih =>
    cases hf : cols.find? (fun c => normT c == normT a) with
    | some c => simp [aliasLookup, specAliasMatch, lookupCol_map, hf]
    | none => simp [aliasLookup, specAliasMatch, lookupCol_map, hf, ih]

lemma fuzzyLookup_map (stdN : List Char) (aliases cols : List String) :
    fuzzyLookup stdN aliases (cols.map (fun c => (normT c, c)))
      = cols.find? (fun c =>
          containsSub stdN (normT c) || aliases.any (fun a => containsSub (normT a) (normT c))) := by
  induction cols with
  | nil => rfl
  | cons c cs ih =>
    cases h : (containsSub stdN (normT c) || aliases.any (fun a => containsSub (normT a) (normT c))) with
    | true => simp [fuzzyLookup, List.find?_cons, h]
    | false => simp [fuzzyLookup, List.find?_cons, h, ih]

lemma mem_dictInsert (p : List Char × String) (k : List Char) (v : String)
    (d : List (List Char × String)) (hp : p ∈ dictInsert k v d) : p = (k, v) ∨ p ∈ d := by
  induction d with
  | nil => simpa [dictInsert] using hp
  | cons q rest ih =>
    by_cases h : (q.1 == k) = true
    · simp only [dictInsert, if_pos h] at hp
      rcases List.mem_cons.mp hp with heq | hp
      · exact Or.inl heq
      · exact Or.inr (List.mem_cons_of_mem q hp)
    · simp only [dictInsert, if_neg h] at hp
      rcases List.mem_cons.mp hp with heq | hp
      · right
        rw [heq]
        exact List.mem_cons_self q rest
      · rcases ih hp with h1 | h1
        · exact Or.inl h1
        · exact Or.inr (List.mem_cons_of_mem q h1)

lemma normalized_columns_key (cols : List String) :
    ∀ p ∈ normalized_columns cols, p.1 = normT p.2 := by
  suffices h : ∀ (cs : List String) (acc : List (List Char × String)),
      (∀ p ∈ acc, p.1 = normT p.2) →
      ∀ p ∈ cs.foldl (fun d c => dictInsert (normT c) c d) acc, p.1 = normT p.2 by
    intro p hp
    exact h cols [] (by intro q hq; cases hq) p hp
  intro cs
  induction cs with
  | nil =>
    intro acc hacc p hp
    exact hacc p hp
  | cons c cs ih =>
    intro acc hacc p hp
    rw [List.foldl_cons] at hp
    refine ih (dictInsert (normT c) c acc) ?_ p hp
    intro q hq
    rcases mem_dictInsert q (normT c) c acc hq with rfl | hq
    · rfl
    · exact hacc q hq

lemma lookupCol_mem (k : List Char) (d : List (List Char × String)) (v : String)
    (h : lookupCol k d = some v) : ∃ p ∈ d, p.1 = k ∧ p.2 = v := by
  induction d with
  | nil => simp [lookupCol] at h
  | cons q rest ih =>
    by_cases hq : (q.1 == k) = true
    · simp only [lookupCol, if_pos hq, Option.some.injEq] at h
      exact ⟨q, List.mem_cons_self q rest, beq_iff_eq.mp hq, h⟩
    · simp only [lookupCol, if_neg hq] at h
      rcases ih h with ⟨p, hp, h1, h2⟩
      exact ⟨p, List.mem_cons_of_mem q hp, h1, h2⟩

lemma aliasLookup_mem (aliases : List String) (nc : List (List Char × String)) (v : String)
    (h : aliasLookup aliases nc = some v) : ∃ a ∈ aliases, lookupCol (normT a) nc = some v := by
  induction aliases with
  | nil => simp [aliasLookup] at h
  | cons a rest ih =>
    cases hl : lookupCol (normT a) nc with
    | some c =>
      simp only [aliasLookup, hl, Option.some.injEq] at h
      exact ⟨a, List.mem_cons_self a rest, by rw [hl, h]⟩
    | none =>
      simp only [aliasLookup, hl] at h
      rcases ih h with ⟨a', ha', hl'⟩
      exact ⟨a', List.mem_cons_of_mem a ha', hl'⟩

lemma fuzzyLookup_mem (stdN : List Char) (aliases : List String)
    (d : List (List Char × String)) (v : String) (h : fuzzyLookup stdN aliases d = some v) :
    ∃ p ∈ d, p.2 = v
      ∧ (containsSub stdN p.1 || aliases.any (fun a => containsSub (normT a) p.1)) = true := by
  induction d with
  | nil => simp [fuzzyLookup] at h
  | cons q rest ih =>
    by_cases hc : (containsSub stdN q.1 || aliases.any (fun a => containsSub (normT a) q.1)) = true
    · simp only [fuzzyLookup, if_pos hc, Option.some.injEq] at h
      exact ⟨q, List.mem_cons_self q rest, h, hc⟩
    · simp only [fuzzyLookup, if_neg hc] at h
      rcases ih h with ⟨p, hp, h1, h2⟩
      exact ⟨p, List.mem_cons_of_mem q hp, h1, h2⟩

lemma containsSub_nil (needle : List Char) (h : needle ≠ []) : containsSub needle [] = false := by
  cases needle with
  | nil => exact absurd rfl h
  | cons c cs => rfl

lemma normT_empty : normT "" = [] := rfl

/-- A matched column is never the empty string, because a qualifying
normalized key is nonempty whenever the canonical name and all aliases
normalize to nonempty strings. -/
lemma autoIdentifyField_ne_empty (stdCol : String) (aliases cols : List String)
    (h1 : normT stdCol ≠ []) (h2 : ∀ a ∈ aliases, normT a ≠ []) :
    ∀ s, autoIdentifyField stdCol aliases cols = some s → s ≠ "" := by
  intro s h hs
  subst hs
  have hkey := normalized_columns_key cols
  simp only [autoIdentifyField] at h
  cases hl : lookupCol (normT stdCol) (normalized_columns cols) with
  | some c =>
    simp only [hl, Option.some.injEq] at h
    subst h
    rcases lookupCol_mem _ _ _ hl with ⟨p, hp, hpk, hpv⟩
    have : p.1 = [] := by rw [hkey p hp, hpv, normT_empty]
    exact h1 (by rw [← hpk, this])
  | none =>
    simp only [hl] at h
    cases ha : aliasLookup aliases (normalized_columns cols) with
    | some c =>
      simp only [ha, Option.some.injEq] at h
      subst h
      rcases aliasLookup_mem _ _ _ ha with ⟨a, haMem, hla⟩
      rcases lookupCol_mem _ _ _ hla with ⟨p, hp, hpk, hpv⟩
      have : p.1 = [] := by rw [hkey p hp, hpv, normT_empty]
      exact h2 a haMem (by rw [← hpk, this])
    | none =>
      simp only [ha] at h
      rcases fuzzyLookup_mem _ _ _ _ h with ⟨p, hp, hpv, hcond⟩
      have hnil : p.1 = [] := by rw [hkey p hp, hpv, normT_empty]
      rw [hnil, containsSub_nil _ h1, Bool.false_or, List.any_eq_true] at hcond
      rcases hcond with ⟨a, haMem, hca⟩
      rw [containsSub_nil _ (h2 a haMem)] at hca
      cases hca

/-- The four canonical fields and all their aliases normalize to
nonempty key strings. -/
lemma column_fields_nonempty :
    ∀ p ∈ column_mapping, normT p.1 ≠ [] ∧ ∀ a ∈ p.2, normT a ≠ [] := by decide

/-! ### Claim theorems: the column reconciler -/

/-- C8 counterexample: with the two headers "x Point ID x" and
"xPOINTIDx", which share the normalized form, the fuzzy stage scans in
original order but the normalized-header dict keeps the LAST original
header per normalized form, so the code reports "xPOINTIDx" while the
first-qualifying-header-in-original-order rule of the claim yields
"x Point ID x". -/
theorem C8_counterexample :
    autoIdentifyField "Point ID"
        ["Point ID", "Point No", "Measurement Point ID", "ID", "Point Number"]
        ["x Point ID x", "xPOINTIDx"] = some "xPOINTIDx"
    ∧ specMatchField "Point ID"
        ["Point ID", "Point No", "Measurement Point ID", "ID", "Point Number"]
        ["x Point ID x", "xPOINTIDx"] = some "x Point ID x"
    ∧ autoIdentifyField "Point ID"
        ["Point ID", "Point No", "Measurement Point ID", "ID", "Point Number"]
        ["x Point ID x", "xPOINTIDx"]
      ≠ specMatchField "Point ID"
        ["Point ID", "Point No", "Measurement Point ID", "ID", "Point Number"]
        ["x Point ID x", "xPOINTIDx"] := by
  refine ⟨by decide, by decide, by decide⟩

/-- C8 amended: for every canonical field and every list of headers
whose normalized forms are pairwise distinct, the code's matcher is
exactly the claimed procedure — normalize everything, then exact match
on the canonical name, then aliases in listed order, then substring
containment with headers scanned in original order, else unmatched.
(When two headers share a normalized form the dict keeps the last of
them, so the reported header can differ from the first-scanned one.) -/
theorem C8_matching (stdCol : String) (aliases cols : List String)
    (h : (cols.map normT).Nodup) :
    autoIdentifyField stdCol aliases cols = specMatchField stdCol aliases cols := by
  simp only [autoIdentifyField, specMatchField]
  rw [normalized_columns_eq cols h, lookupCol_map, aliasLookup_map, fuzzyLookup_map]

/-- C8 witness: the spec's fuzzy-fallback scenario — header
"SaturatedDepthds" is matched to the canonical field
"Saturated soil depth ds(m)" through the normalized alias "ds", and the
code agrees with the claimed procedure on this duplicate-free header
list. -/
theorem C8_witness :
    ((["Point", "SaturatedDepthds", "Nvalue", "thick"].map normT).Nodup)
    ∧ autoIdentifyField "Saturated soil depth ds(m)"
        ["Saturated soil depth ds(m)", "Saturated depth(m)", "ds", "Saturated depth",
         "Soil depth ds", "Depth ds"]
        ["Point", "SaturatedDepthds", "Nvalue", "thick"]
      = specMatchField "Saturated soil depth ds(m)"
        ["Saturated soil depth ds(m)", "Saturated depth(m)", "ds", "Saturated depth",
         "Soil depth ds", "Depth ds"]
        ["Point", "SaturatedDepthds", "Nvalue", "thick"]
    ∧ autoIdentifyField "Saturated soil depth ds(m)"
        ["Saturated soil depth ds(m)", "Saturated depth(m)", "ds", "Saturated depth",
         "Soil depth ds", "Depth ds"]
        ["Point", "SaturatedDepthds", "Nvalue", "thick"]
      = some "SaturatedDepthds" := by
  refine ⟨by decide, C8_matching _ _ _ (by decide), by decide⟩

/-- C9: an import is accepted exactly when all four canonical fields
resolve to a column; when it is rejected, the reported list is nonempty
and contains precisely the canonical names of the unresolved fields, and
the rejection carries no point groups. -/
theorem C9_import_gate (t : Table) :
    (acceptedImport (preview_file t) = true ↔
      ∀ p ∈ column_mapping, (autoIdentifyField p.1 p.2 t.headers).isSome = true)
    ∧ (∀ e, preview_file t = Except.error e →
        e ≠ [] ∧ ∀ f, (f ∈ e ↔
          ∃ als, (f, als) ∈ column_mapping ∧ autoIdentifyField f als t.headers = none)) := by
  have hfalsy : ∀ p ∈ column_mapping,
      (falsy (autoIdentifyField p.1 p.2 t.headers) = true ↔
        autoIdentifyField p.1 p.2 t.headers = none) := by
    intro p hp
    rcases column_fields_nonempty p hp with ⟨h1, h2⟩
    cases hres : autoIdentifyField p.1 p.2 t.headers with
    | none => simp [falsy]
    | some s =>
      have hne := autoIdentifyField_ne_empty p.1 p.2 t.headers h1 h2 s hres
      simp [falsy, hne]
  have hmem : ∀ f, f ∈ missing_columns t.headers ↔
      ∃ als, (f, als) ∈ column_mapping ∧ autoIdentifyField f als t.headers = none := by
    intro f
    unfold missing_columns auto_identify_columns
    simp only [List.mem_map, List.mem_filter]
    constructor
    · rintro ⟨q, ⟨⟨p, hp, rfl⟩, hfq⟩, rfl⟩
      refine ⟨p.2, ?_, (hfalsy p hp).mp hfq⟩
      simpa using hp
    · rintro ⟨als, hin, hnone⟩
      refine ⟨(f, autoIdentifyField f als t.headers), ⟨⟨(f, als), hin, rfl⟩, ?_⟩, rfl⟩
      rw [hnone]
      rfl
  have hprev : preview_file t =
      (if missing_columns t.headers ≠ [] then Except.error (missing_columns t.headers)
       else Except.ok (group_points t
         ((((auto_identify_columns t.headers).find? (fun p => p.1 == "Point ID")).bind
           (fun p => p.2)).getD ""))) := rfl
  by_cases hmc : missing_columns t.headers = []
  · rw [hprev, if_neg (by simp [hmc])]
    constructor
    · simp only [acceptedImport, true_iff]
      intro p hp
      rw [Option.isSome_iff_ne_none]
      intro hnone
      have : p.1 ∈ missing_columns t.headers :=
        (hmem p.1).mpr ⟨p.2, by simpa using hp, hnone⟩
      rw [hmc] at this
      cases this
    · intro e he
      cases he
  · rw [hprev, if_pos hmc]
    constructor
    · simp only [acceptedImport, Bool.false_eq_true, false_iff]
      intro hall
      rcases List.exists_mem_of_ne_nil _ hmc with ⟨f, hf⟩
      rcases (hmem f).mp hf with ⟨als, hin, hnone⟩
      have := hall (f, als) hin
      rw [hnone] at this
      cases this
    · intro e he
      have he' : missing_columns t.headers = e := by
        injection he
      rw [← he']
      exact ⟨hmc, hmem⟩

/-- C9 witness: the spec's missing-column scenario — a table whose
headers are "id", "ds", "di" has no recognizable Measured N-value
column; the import is rejected naming exactly that unresolved field, and
the rejection carries no point groups. -/
theorem C9_witness :
    preview_file ⟨["id", "ds", "di"], [["P1", "1.5", "3.0"]]⟩
      = Except.error ["Measured N-value"]
    ∧ (["Measured N-value"] : List String) ≠ []
    ∧ autoIdentifyField "Measured N-value"
        ["Measured N-value", "N-value", "Measured penetration value", "Standard penetration N",
         "N", "Blow count N"] ["id", "ds", "di"] = none := by
  have h : preview_file ⟨["id", "ds", "di"], [["P1", "1.5", "3.0"]]⟩
      = Except.error ["Measured N-value"] := by decide
  have hmain := (C9_import_gate ⟨["id", "ds", "di"], [["P1", "1.5", "3.0"]]⟩).2
    ["Measured N-value"] h
  exact ⟨h, hmain.1, by decide⟩

end SPT
